import Mathlib

/-!
Shallow embedding of the pyxel document loader: the field transcoders of
`src/deserialization.rs`, the document model and the `Color` / `BlendMode`
decoding of `src/pyxel.rs`, the error taxonomy of `src/error.rs`, and the
archive-loading entry points of `src/lib.rs` and `src/pyxel.rs`.

Conventions used throughout:
* Rust `u64` / `usize` / `u8` / `u16` values are `Nat`; `i32` values are `Int`.
* `f64` values are modelled as exact rationals: the only arithmetic the code
  performs on them (`* 90.0`, `/ 100.0`) is modelled exactly.
* Byte buffers are `List Nat`.
* A Rust panic is a distinguished outcome (`none` for the transcoders,
  `LoadResult.panicked` for the loader), separate from returning an error.
* Readers (`Cursor`, `File`, generic `Read + Seek`) are modelled by the byte
  sequence they yield; the zip container and the JSON-to-document parse are
  parameters of the loader, so theorems about the loader quantify over them.
-/

/-- A raw JSON value as the serde deserializer presents it to the visitors of
`src/deserialization.rs`.  An integer JSON number that fits in `u64`
(`0 ≤ n < 2 ^ 64`) is delivered through `visit_u64`; every other shape
(negative integer, non-integer number, string, boolean, null, array, object)
reaches only visitor methods the transcoders do not implement, so serde
reports an invalid-type error for it. -/
inductive JVal where
  | int (n : Int)
  | float
  | str (s : String)
  | bool (b : Bool)
  | null
  | arr (xs : List JVal)
  | obj (fields : List (String × JVal))

/-- `deserialize_as_degrees` (src/deserialization.rs lines 7-30): the visitor
implements only `visit_u64`, returning `(v as f64) * 90.`; the `f64` result is
modelled as an exact rational.  Any input that serde cannot hand to
`visit_u64` as a `u64` hits a default visitor method and is rejected. -/
def deserialize_as_degrees : JVal → Except String ℚ
  | .int n => if 0 ≤ n ∧ n < 2 ^ 64 then .ok ((n : ℚ) * 90) else .error "invalid type"
  | _ => .error "invalid type"

/-- The body of `multipliersAux` below and of `deserialize_multipliers`
(src/deserialization.rs lines 92-121): each sequence element is read with
`next_element::<u64>()` and pushed as `(value as f64) / 100.`; a non-`u64`
element aborts with serde's error. -/
def multipliersAux : List JVal → Except String (List ℚ)
  | [] => .ok []
  | .int n :: rest =>
      if 0 ≤ n ∧ n < 2 ^ 64 then
        match multipliersAux rest with
        | .ok qs => .ok ((n : ℚ) / 100 :: qs)
        | .error e => .error e
      else .error "invalid type"
  | _ :: _ => .error "invalid type"

/-- `deserialize_multipliers` (src/deserialization.rs lines 92-121): visits a
sequence, converting each `u64` element to `(value as f64) / 100.` in order;
any non-sequence input is rejected by the default visitor methods. -/
def deserialize_multipliers : JVal → Except String (List ℚ)
  | .arr xs => multipliersAux xs
  | _ => .error "invalid type"

/-- `Vec::insert(index, element)` for `index ≤ len`: shifts the elements from
`index` onward to the right.  (The `index > len` panic case is handled by the
caller `mapAsVecAux`, which models it as `none`.) -/
def vecInsert (l : List α) (i : Nat) (a : α) : List α := l.take i ++ a :: l.drop i

/-- The `visit_map` loop of `deserialize_map_as_vec` (src/deserialization.rs
lines 57-90): `while let Some((key, value)) = access.next_entry()` performing
`vec.insert(key, value)` on the accumulator `acc`.  `Vec::insert` panics when
`key > vec.len()`; the panic is modelled as `none`. -/
def mapAsVecAux (acc : List α) : List (Nat × α) → Option (List α)
  | [] => some acc
  | (k, v) :: rest =>
      if k ≤ acc.length then mapAsVecAux (vecInsert acc k v) rest else none

/-- `deserialize_map_as_vec` (src/deserialization.rs lines 57-90), applied to
the map entries in the order the deserializer yields them (for serde_json this
is the textual order of the JSON object).  `some` is a normal return, `none`
is the `Vec::insert` panic. -/
def deserialize_map_as_vec (entries : List (Nat × α)) : Option (List α) :=
  mapAsVecAux [] entries

/-- An RGBA color (src/pyxel.rs lines 14-25); each component is a `u8`. -/
structure Color where
  r : Nat
  g : Nat
  b : Nat
  a : Nat
  deriving DecidableEq

/-- The value of one hex digit, exactly the digits the `hex` crate accepts
(`0-9`, `a-f`, `A-F`); `none` for every other character. -/
def hexVal (c : Char) : Option Nat :=
  if '0' ≤ c ∧ c ≤ '9' then some (c.toNat - 48)
  else if 'a' ≤ c ∧ c ≤ 'f' then some (c.toNat - 87)
  else if 'A' ≤ c ∧ c ≤ 'F' then some (c.toNat - 55)
  else none

/-- Hex decoding of consecutive character pairs into bytes, as the `hex`
crate's `FromHex` does; `none` on an odd tail or a non-hex character. -/
def decodeHexPairs : List Char → Option (List Nat)
  | [] => some []
  | c1 :: c2 :: rest =>
      match hexVal c1, hexVal c2, decodeHexPairs rest with
      | some hi, some lo, some bs => some ((hi * 16 + lo) :: bs)
      | _, _, _ => none
  | [_] => none

/-- `<[u8; 4]>::from_hex` (the `hex` crate, external collaborator of
`Color::from_str`): succeeds only on exactly 8 hex characters, producing the
4 decoded bytes; every wrong-length or non-hex input is an error (`none`). -/
def fromHexBytes4 (cs : List Char) : Option (List Nat) :=
  if cs.length = 8 then decodeHexPairs cs else none

/-- `Color::from_str` (src/pyxel.rs lines 27-42): decodes the string as 4 hex
bytes and builds the color as `r = decoded[1]`, `g = decoded[2]`,
`b = decoded[3]`, `a = decoded[0]` (AARRGGBB order).  `none` models the
`hex::FromHexError` return. -/
def Color.from_str (s : String) : Option Color :=
  match fromHexBytes4 s.data with
  | some [b0, b1, b2, b3] => some { r := b1, g := b2, b := b3, a := b0 }
  | _ => none

/-- A Pyxel blend mode (src/pyxel.rs lines 125-170): a closed enumeration of
11 variants. -/
inductive BlendMode where
  | Normal | Multiply | Add | Difference | Darken | Lighten
  | Hardlight | Invert | Overlay | Screen | Subtract
  deriving DecidableEq

/-- The serde rename tag of each `BlendMode` variant (the
`#[serde(rename = "...")]` attributes of src/pyxel.rs lines 125-170). -/
def BlendMode.tag : BlendMode → String
  | .Normal => "normal"
  | .Multiply => "multiply"
  | .Add => "add"
  | .Difference => "difference"
  | .Darken => "darken"
  | .Lighten => "lighten"
  | .Hardlight => "hardlight"
  | .Invert => "invert"
  | .Overlay => "overlay"
  | .Screen => "screen"
  | .Subtract => "subtract"

/-- Deserialization of a `BlendMode` from its string tag, as the derived serde
implementation with the 11 renames does: each known tag maps to its variant,
anything else is an unknown-variant error (`none`). -/
def BlendMode.fromTag (s : String) : Option BlendMode :=
  if s = "normal" then some .Normal
  else if s = "multiply" then some .Multiply
  else if s = "add" then some .Add
  else if s = "difference" then some .Difference
  else if s = "darken" then some .Darken
  else if s = "lighten" then some .Lighten
  else if s = "hardlight" then some .Hardlight
  else if s = "invert" then some .Invert
  else if s = "overlay" then some .Overlay
  else if s = "screen" then some .Screen
  else if s = "subtract" then some .Subtract
  else none

/-- A semantic version (the `semver::Version` field of the document). -/
structure SemVersion where
  major : Nat
  minor : Nat
  patch : Nat
  deriving DecidableEq

/-- A reference to a tile in a tileset (src/pyxel.rs lines 97-104). -/
structure TileRef where
  index : Nat
  rot : ℚ
  flip_x : Bool
  deriving DecidableEq

/-- A Pyxel palette (src/pyxel.rs lines 66-77). -/
structure Palette where
  colors : List (Option Color)
  height : Nat
  num_colors : Nat
  width : Nat
  deriving DecidableEq

/-- A Pyxel canvas layer (src/pyxel.rs lines 178-199), in the default
(`not(feature = "images")`) build where the attached payload is the raw image
bytes.  `tile_refs` models the `BTreeMap<usize, TileRef>` as its entry list. -/
structure Layer where
  alpha : Nat
  blend_mode : BlendMode
  hidden : Bool
  muted : Bool
  name : String
  soloed : Bool
  tile_refs : List (Nat × TileRef)
  image_data : List Nat
  deriving DecidableEq

/-- A Pyxel canvas (src/pyxel.rs lines 252-269). -/
structure Canvas where
  layers : List Layer
  height : Int
  num_layers : Nat
  tile_height : Nat
  tile_width : Nat
  width : Int
  deriving DecidableEq

/-- A Pyxel tileset (src/pyxel.rs lines 297-322), raw-bytes build. -/
structure Tileset where
  fixed_width : Bool
  num_tiles : Nat
  tile_height : Nat
  tile_width : Nat
  tiles_wide : Nat
  image_data : List (List Nat)
  deriving DecidableEq

/-- A Pyxel animation (src/pyxel.rs lines 365-383); the frame duration is the
number of milliseconds (from `deserialize_as_milliseconds`). -/
structure Animation where
  base_tile : Nat
  frame_duration : Nat
  frame_duration_multipliers : List ℚ
  length : Nat
  name : String
  deriving DecidableEq

/-- A Pyxel document (src/pyxel.rs lines 420-429). -/
structure Pyxel where
  animations : List Animation
  canvas : Canvas
  name : String
  palette : Palette
  tileset : Tileset
  version : SemVersion
  deriving DecidableEq

/-- The errors of the `zip` crate that the loader can surface: a missing
member (`by_name` miss) or a structurally invalid archive. -/
inductive ZipError where
  | fileNotFound
  | invalidArchive (msg : String)
  deriving DecidableEq

/-- `PyxelError` (src/error.rs lines 3-17) with the `From` conversions of
src/error.rs lines 50-72 applied at each `?` site. -/
inductive PyxelError where
  | io (msg : String)
  | zip (e : ZipError)
  | serde (msg : String)
  | image (msg : String)
  deriving DecidableEq

/-- The outcome of running a loader stage: a value, a returned error, or a
Rust panic. -/
inductive LoadResult (α : Type) where
  | ok (value : α)
  | err (e : PyxelError)
  | panicked
  deriving DecidableEq

/-- An opened zip archive: the named members with their byte contents. -/
abbrev Archive : Type := List (String × List Nat)

/-- `ZipArchive::by_name` (the `zip` crate): the member's bytes, or
`FileNotFound` when no member has that exact name. -/
def byName (archive : Archive) (path : String) : Except ZipError (List Nat) :=
  match List.find? (fun m => m.1 == path) archive with
  | some m => .ok m.2
  | none => .error .fileNotFound

/-- The archive member name `format!("layer{}.png", i)` used by `load`. -/
def layerPath (i : Nat) : String := "layer" ++ toString i ++ ".png"

/-- The archive member name `format!("tile{}.png", i)` used by `load`. -/
def tilePath (i : Nat) : String := "tile" ++ toString i ++ ".png"

/-- The bytes carried by a successful `byName` lookup (`[]` on a miss; only
used where the lookup is known to succeed). -/
def okBytes (r : Except ZipError (List Nat)) : List Nat :=
  match r with
  | .ok d => d
  | .error _ => []

/-- `pyxel.canvas.layers[i].image_data = image_data`: the layer with its image
payload replaced. -/
def setLayerImage (l : Layer) (d : List Nat) : Layer := { l with image_data := d }

/-- The layer-image attachment loop of `load` (src/pyxel.rs lines 504-510):
`for i in 0..num_layers`, fetch member `layer{i}.png` (a miss returns the zip
error via `?`), then assign `pyxel.canvas.layers[i].image_data` — the indexing
panics when `i` is out of bounds.  `fuel` is the number of remaining
iterations, `i` the current index. -/
def attachLayersAux (archive : Archive) : Nat → Nat → Pyxel → LoadResult Pyxel
  | 0, _, p => .ok p
  | fuel + 1, i, p =>
      match byName archive (layerPath i) with
      | .error e => .err (.zip e)
      | .ok data =>
          if h : i < p.canvas.layers.length then
            attachLayersAux archive fuel (i + 1)
              { p with canvas := { p.canvas with
                  layers := p.canvas.layers.set i
                    (setLayerImage (p.canvas.layers.get ⟨i, h⟩) data) } }
          else .panicked

/-- The full layer loop of `load`: `for i in 0..pyxel.canvas().num_layers`. -/
def attachLayerImages (archive : Archive) (p : Pyxel) : LoadResult Pyxel :=
  attachLayersAux archive p.canvas.num_layers 0 p

/-- The tile-image attachment loop of `load` (src/pyxel.rs lines 517-528):
`for i in 0..num_tiles`, fetch member `tile{i}.png`, then
`pyxel.tileset.image_data.insert(i, image_data)` (`Vec::insert`, which panics
when `i` exceeds the current length). -/
def attachTilesAux (archive : Archive) : Nat → Nat → Pyxel → LoadResult Pyxel
  | 0, _, p => .ok p
  | fuel + 1, i, p =>
      match byName archive (tilePath i) with
      | .error e => .err (.zip e)
      | .ok data =>
          if i ≤ p.tileset.image_data.length then
            attachTilesAux archive fuel (i + 1)
              { p with tileset := { p.tileset with
                  image_data := vecInsert p.tileset.image_data i data } }
          else .panicked

/-- The full tile loop of `load`: `for i in 0..pyxel.tileset().num_tiles`. -/
def attachTileImages (archive : Archive) (p : Pyxel) : LoadResult Pyxel :=
  attachTilesAux archive p.tileset.num_tiles 0 p

/-- `load` (src/pyxel.rs lines 498-531): open the bytes as a zip archive, pull
the member `docData.json`, parse it into a document, then run the two image
attachment loops.  The zip container (`zipNew`, for `ZipArchive::new`) and the
JSON parse (`parseDoc`, for `serde_json::from_reader`) are external to this
file's claims about `load` itself and are taken as parameters; `parseDoc`
returns a `LoadResult` because the parse can itself panic (see
`deserialize_map_as_vec`). -/
def load (parseDoc : List Nat → LoadResult Pyxel)
    (zipNew : List Nat → Except ZipError Archive)
    (bytes : List Nat) : LoadResult Pyxel :=
  match zipNew bytes with
  | .error e => .err (.zip e)
  | .ok archive =>
      match byName archive "docData.json" with
      | .error e => .err (.zip e)
      | .ok data =>
          match parseDoc data with
          | .panicked => .panicked
          | .err e => .err e
          | .ok pyxel =>
              match attachLayerImages archive pyxel with
              | .ok p => attachTileImages archive p
              | other => other

/-- `load_from_memory` (src/lib.rs lines 34-37): wraps the buffer in a
`Cursor` and calls `load`; a cursor over `buf` is the reader yielding exactly
`buf`. -/
def load_from_memory (parseDoc : List Nat → LoadResult Pyxel)
    (zipNew : List Nat → Except ZipError Archive)
    (buf : List Nat) : LoadResult Pyxel :=
  load parseDoc zipNew buf

/-- `open` (src/lib.rs lines 49-55; named `openPath` here because `open` is a
Lean keyword): `File::open(path)?` then `load(file)`.  The filesystem is the
map `fs` from paths to file contents; an open failure is the propagated
`PyxelError::Io`. -/
def openPath (parseDoc : List Nat → LoadResult Pyxel)
    (zipNew : List Nat → Except ZipError Archive)
    (fs : String → Except String (List Nat))
    (path : String) : LoadResult Pyxel :=
  match fs path with
  | .error e => .err (.io e)
  | .ok bytes => load parseDoc zipNew bytes

/-- Every document field outside `canvas.layers` (the layer loop touches only
the layer list). -/
def sameOutsideLayers (p q : Pyxel) : Prop :=
  q.name = p.name ∧ q.version = p.version ∧ q.palette = p.palette ∧
  q.tileset = p.tileset ∧ q.animations = p.animations ∧
  q.canvas.width = p.canvas.width ∧ q.canvas.height = p.canvas.height ∧
  q.canvas.tile_width = p.canvas.tile_width ∧
  q.canvas.tile_height = p.canvas.tile_height ∧
  q.canvas.num_layers = p.canvas.num_layers

/-- A layer with no tile refs and no payload, component of concrete inputs. -/
def sampleLayer : Layer :=
  { alpha := 255, blend_mode := .Normal, hidden := false, muted := false,
    name := "Layer 0", soloed := false, tile_refs := [], image_data := [] }

/-- A concrete document whose layer list and declared layer count can be
chosen independently. -/
def sampleDoc (ls : List Layer) (n : Nat) : Pyxel :=
  { animations := [],
    canvas := { layers := ls, height := 0, num_layers := n, tile_height := 0,
                tile_width := 0, width := 0 },
    name := "doc",
    palette := { colors := [], height := 0, num_colors := 0, width := 0 },
    tileset := { fixed_width := false, num_tiles := 0, tile_height := 0,
                 tile_width := 0, tiles_wide := 0, image_data := [] },
    version := { major := 0, minor := 4, patch := 8 } }

/-- A concrete archive holding a single layer image member. -/
def sampleArchive : Archive := [("layer0.png", [7])]

/-- A concrete archive holding a `docData.json` member and a layer image. -/
def sampleArchive2 : Archive := [("docData.json", [1]), ("layer0.png", [7])]

/-! ## Helper lemmas about the sparse-map transcoder -/

theorem vecInsert_length {l : List α} {i : Nat} (a : α) (h : i ≤ l.length) :
    (vecInsert l i a).length = l.length + 1 := by
  simp [vecInsert]
  omega

theorem vecInsert_at_length (l : List α) (a : α) :
    vecInsert l l.length a = l ++ [a] := by
  simp [vecInsert]

theorem mapAsVecAux_ascending (entries : List (Nat × α)) :
    ∀ acc : List α,
      (∀ i (h : i < entries.length), (entries.get ⟨i, h⟩).1 = acc.length + i) →
      mapAsVecAux acc entries = some (acc ++ entries.map Prod.snd) := by
  induction entries with
  | nil => intro acc _; simp [mapAsVecAux]
  | cons kv rest ih =>
      intro acc hkeys
      obtain ⟨k, v⟩ := kv
      have hk : k = acc.length := by
        have h0 := hkeys 0 (by simp)
        simpa using h0
      subst hk
      simp only [mapAsVecAux, le_refl, if_pos, vecInsert_at_length]
      rw [ih (acc ++ [v]) ?_]
      · simp
      · intro i h
        have h1 := hkeys (i + 1) (by simpa using Nat.succ_lt_succ h)
        simp only [List.length_append, List.length_cons] at h1 ⊢
        simp only [List.get_cons_succ] at h1
        simpa [Nat.add_comm, Nat.add_assoc, Nat.add_left_comm] using h1

theorem mapAsVecAux_key_overrun (entries : List (Nat × α)) :
    ∀ (acc : List α) (i : Nat) (h : i < entries.length),
      acc.length + i < (entries.get ⟨i, h⟩).1 →
      mapAsVecAux acc entries = none := by
  induction entries with
  | nil => intro acc i h; exact absurd h (by simp)
  | cons kv rest ih =>
      intro acc i h hkey
      obtain ⟨k, v⟩ := kv
      match i with
      | 0 =>
          have hk : acc.length < k := by simpa using hkey
          simp [mapAsVecAux, Nat.not_le.mpr hk]
      | i' + 1 =>
          have h' : i' < rest.length := by simpa using Nat.lt_of_succ_lt_succ h
          have hkey' : acc.length + (i' + 1) < (rest.get ⟨i', h'⟩).1 := by
            simpa using hkey
          by_cases hle : k ≤ acc.length
          · simp only [mapAsVecAux, if_pos hle]
            exact ih (vecInsert acc k v) i' h'
              (by rw [vecInsert_length v hle]; omega)
          · simp [mapAsVecAux, hle]

/-! ## C1 -/

/-- C1 (amended): the sparse-map-to-sequence transcoder
`deserialize_map_as_vec` places each value at the output position equal to its
integer source key for every map whose keys are exactly `0..n-1` *encountered
in ascending key order* (the `i`-th entry carries key `i`): the result is the
sequence of values in key order.  (The original claim's "regardless of the
order in which the map entries are encountered" is refuted by
`deserialize_map_as_vec_order_cex`.) -/
theorem deserialize_map_as_vec_dense_ascending {α : Type} (entries : List (Nat × α))
    (hkeys : ∀ i (h : i < entries.length), (entries.get ⟨i, h⟩).1 = i) :
    deserialize_map_as_vec entries = some (entries.map Prod.snd) := by
  have h := mapAsVecAux_ascending entries [] (by simpa using hkeys)
  simpa [deserialize_map_as_vec] using h

/-- C1 witness: the dense three-entry map `{0:10, 1:20, 2:30}` in ascending
order yields `[10, 20, 30]`. -/
theorem deserialize_map_as_vec_dense_ascending_witness :
    deserialize_map_as_vec [(0, 10), (1, 20), (2, 30)] = some [10, 20, 30] := by
  have h := deserialize_map_as_vec_dense_ascending [(0, 10), (1, 20), (2, 30)]
    (by decide)
  simpa using h

/-- C1 counterexample: the dense map with keys exactly `{0, 1}` encountered as
`{1:20, 0:10}` does not produce `[10, 20]` — the transcoder panics
(`Vec::insert` with index 1 on an empty vector), modelled as `none`. -/
theorem deserialize_map_as_vec_order_cex :
    deserialize_map_as_vec [(1, 20), (0, 10)] = none ∧
      deserialize_map_as_vec [(1, 20), (0, 10)] ≠ some [10, 20] := by
  constructor
  · rfl
  · intro h
    exact Option.noConfusion h

/-! ## C9 -/

/-- C9: `deserialize_map_as_vec` is not total on well-formed integer-keyed
maps: whenever the `i`-th encountered entry has a key exceeding `i` (the
number of entries already inserted), the transcoder panics via `Vec::insert`
(`none`) instead of returning an error — in particular for the single-entry
map `{5:a}`.  Moreover `load` propagates a panic of the `docData.json`
parse, so such a crafted `docData.json` makes `load` panic rather than fail
with an error. -/
theorem deserialize_map_as_vec_key_overrun_panics {α : Type} :
    (∀ (entries : List (Nat × α)) (i : Nat) (h : i < entries.length),
        i < (entries.get ⟨i, h⟩).1 → deserialize_map_as_vec entries = none) ∧
    (∀ parseDoc zipNew (bytes data : List Nat) (archive : Archive),
        zipNew bytes = .ok archive →
        byName archive "docData.json" = .ok data →
        parseDoc data = .panicked →
        load parseDoc zipNew bytes = .panicked) := by
  constructor
  · intro entries i h hkey
    exact mapAsVecAux_key_overrun entries [] i h (by simpa using hkey)
  · intro parseDoc zipNew bytes data archive hzip hmem hparse
    simp [load, hzip, hmem, hparse]

/-- C9 witness: the single-entry map `{5:0}` panics, and a `load` whose
`docData.json` parse panics returns the panic outcome. -/
theorem deserialize_map_as_vec_key_overrun_panics_witness :
    deserialize_map_as_vec [(5, 0)] = none ∧
      load (fun _ => .panicked) (fun _ => .ok [("docData.json", [])]) [] =
        .panicked := by
  constructor
  · exact (deserialize_map_as_vec_key_overrun_panics (α := Nat)).1
      [(5, 0)] 0 (by decide) (by decide)
  · exact (deserialize_map_as_vec_key_overrun_panics (α := Nat)).2
      (fun _ => .panicked) (fun _ => .ok [("docData.json", [])]) [] []
      [("docData.json", [])] rfl rfl rfl

/-! ## Helper lemmas about hex decoding -/

theorem decodeHexPairs_mem_none :
    ∀ (cs : List Char) (c : Char), c ∈ cs → hexVal c = none →
      decodeHexPairs cs = none
  | [], c, hc, _ => absurd hc (by simp)
  | [_], _, _, _ => by simp [decodeHexPairs]
  | c1 :: c2 :: rest, c, hc, hv => by
      rcases List.mem_cons.mp hc with h | h
      · subst h
        simp [decodeHexPairs, hv]
      · rcases List.mem_cons.mp h with h2 | h2
        · subst h2
          cases hx : hexVal c1 <;> simp [decodeHexPairs, hx, hv]
        · have hrec := decodeHexPairs_mem_none rest c h2 hv
          cases hx1 : hexVal c1 <;> cases hx2 : hexVal c2 <;>
            simp [decodeHexPairs, hx1, hx2, hrec]

/-! ## C2 -/

/-- C2: `Color::from_str` decodes an 8-hex-digit string in AARRGGBB byte
order: `"ffaabbcc"` yields `Color{r:170, g:187, b:204, a:255}`; any input of
wrong length or containing a non-hex character is rejected; and on every valid
8-hex-char input `[c0..c7]` (pairs decoding to bytes `b0 b1 b2 b3`) the first
byte becomes alpha, then red, green, blue. -/
theorem color_from_str_aarrggbb :
    Color.from_str "ffaabbcc" = some { r := 170, g := 187, b := 204, a := 255 } ∧
    (∀ s : String, s.data.length ≠ 8 → Color.from_str s = none) ∧
    (∀ (s : String) (c : Char), c ∈ s.data → hexVal c = none →
        Color.from_str s = none) ∧
    (∀ (c0 c1 c2 c3 c4 c5 c6 c7 : Char) (v0 v1 v2 v3 v4 v5 v6 v7 : Nat),
        hexVal c0 = some v0 → hexVal c1 = some v1 → hexVal c2 = some v2 →
        hexVal c3 = some v3 → hexVal c4 = some v4 → hexVal c5 = some v5 →
        hexVal c6 = some v6 → hexVal c7 = some v7 →
        Color.from_str (String.mk [c0, c1, c2, c3, c4, c5, c6, c7]) =
          some { r := v2 * 16 + v3, g := v4 * 16 + v5, b := v6 * 16 + v7,
                 a := v0 * 16 + v1 }) := by
  refine ⟨by decide, ?_, ?_, ?_⟩
  · intro s h
    have h' : ¬ s.length = 8 := h
    simp [Color.from_str, fromHexBytes4, h']
  · intro s c hc hv
    by_cases hlen : s.length = 8
    · have hdec := decodeHexPairs_mem_none s.data c hc hv
      simp [Color.from_str, fromHexBytes4, hlen, hdec]
    · simp [Color.from_str, fromHexBytes4, hlen]
  · intro c0 c1 c2 c3 c4 c5 c6 c7 v0 v1 v2 v3 v4 v5 v6 v7 h0 h1 h2 h3 h4 h5 h6 h7
    simp [Color.from_str, fromHexBytes4, decodeHexPairs,
      h0, h1, h2, h3, h4, h5, h6, h7]

/-- C2 witness: the spec example decodes as stated, a 2-char input and an
8-char input containing `z` are both rejected. -/
theorem color_from_str_aarrggbb_witness :
    Color.from_str "ffaabbcc" = some { r := 170, g := 187, b := 204, a := 255 } ∧
    Color.from_str "ff" = none ∧ Color.from_str "ffaabbcz" = none := by
  refine ⟨color_from_str_aarrggbb.1, ?_, ?_⟩
  · exact color_from_str_aarrggbb.2.1 "ff" (by decide)
  · exact color_from_str_aarrggbb.2.2.1 "ffaabbcz" 'z' (by decide) (by decide)

/-! ## C4 -/

/-- C4: `BlendMode` deserialization is a one-to-one mapping between the 11
fixed lowercase tags and the 11 variants (every variant's tag maps back to it,
and a string mapping to a variant is that variant's tag), and every string
outside the tag set — in particular `"glow"` — fails instead of defaulting to
`Normal`. -/
theorem blendmode_tags_bijective :
    (∀ m : BlendMode, BlendMode.fromTag m.tag = some m) ∧
    (∀ (s : String) (m : BlendMode), BlendMode.fromTag s = some m → s = m.tag) ∧
    (∀ s : String,
        s ∉ ["normal", "multiply", "add", "difference", "darken", "lighten",
             "hardlight", "invert", "overlay", "screen", "subtract"] →
        BlendMode.fromTag s = none) ∧
    BlendMode.fromTag "glow" = none := by
  refine ⟨?_, ?_, ?_, rfl⟩
  · intro m
    cases m <;> rfl
  · intro s m h
    unfold BlendMode.fromTag at h
    rcases ite_eq_iff.mp h with ⟨hc, hx⟩ | ⟨-, h⟩
    · injection hx with hx'; subst hx'; exact hc
    rcases ite_eq_iff.mp h with ⟨hc, hx⟩ | ⟨-, h⟩
    · injection hx with hx'; subst hx'; exact hc
    rcases ite_eq_iff.mp h with ⟨hc, hx⟩ | ⟨-, h⟩
    · injection hx with hx'; subst hx'; exact hc
    rcases ite_eq_iff.mp h with ⟨hc, hx⟩ | ⟨-, h⟩
    · injection hx with hx'; subst hx'; exact hc
    rcases ite_eq_iff.mp h with ⟨hc, hx⟩ | ⟨-, h⟩
    · injection hx with hx'; subst hx'; exact hc
    rcases ite_eq_iff.mp h with ⟨hc, hx⟩ | ⟨-, h⟩
    · injection hx with hx'; subst hx'; exact hc
    rcases ite_eq_iff.mp h with ⟨hc, hx⟩ | ⟨-, h⟩
    · injection hx with hx'; subst hx'; exact hc
    rcases ite_eq_iff.mp h with ⟨hc, hx⟩ | ⟨-, h⟩
    · injection hx with hx'; subst hx'; exact hc
    rcases ite_eq_iff.mp h with ⟨hc, hx⟩ | ⟨-, h⟩
    · injection hx with hx'; subst hx'; exact hc
    rcases ite_eq_iff.mp h with ⟨hc, hx⟩ | ⟨-, h⟩
    · injection hx with hx'; subst hx'; exact hc
    rcases ite_eq_iff.mp h with ⟨hc, hx⟩ | ⟨-, h⟩
    · injection hx with hx'; subst hx'; exact hc
    exact Option.noConfusion h
  · intro s hs
    simp only [List.mem_cons, List.not_mem_nil, or_false, not_or] at hs
    obtain ⟨h1, h2, h3, h4, h5, h6, h7, h8, h9, h10, h11⟩ := hs
    unfold BlendMode.fromTag
    rw [if_neg h1, if_neg h2, if_neg h3, if_neg h4, if_neg h5, if_neg h6,
      if_neg h7, if_neg h8, if_neg h9, if_neg h10, if_neg h11]

/-- C4 witness: `"add"` maps to `Add` and back, `"glow"` is rejected. -/
theorem blendmode_tags_bijective_witness :
    BlendMode.fromTag "add" = some BlendMode.Add ∧
    "add" = BlendMode.Add.tag ∧ BlendMode.fromTag "glow" = none := by
  exact ⟨blendmode_tags_bijective.1 BlendMode.Add,
    blendmode_tags_bijective.2.1 "add" BlendMode.Add rfl,
    blendmode_tags_bijective.2.2.2⟩

/-! ## C5 -/

/-- C5: the angle transcoder maps every non-negative integer quadrant code `q`
(that serde can deliver as a `u64`) to `90 * q` degrees, and fails on every
raw value that cannot be read as such a non-negative integer. -/
theorem deserialize_as_degrees_times_ninety :
    (∀ n : Nat, (n : Int) < 2 ^ 64 →
        deserialize_as_degrees (.int n) = .ok (90 * (n : ℚ))) ∧
    (∀ v : JVal, (¬ ∃ n : Int, v = .int n ∧ 0 ≤ n ∧ n < 2 ^ 64) →
        ∃ e, deserialize_as_degrees v = .error e) := by
  constructor
  · intro n hn
    have hcond : (0 : Int) ≤ (n : Int) ∧ (n : Int) < 2 ^ 64 :=
      ⟨Int.natCast_nonneg n, hn⟩
    simp only [deserialize_as_degrees]
    rw [if_pos hcond]
    push_cast
    rw [mul_comm]
  · intro v hv
    match v with
    | .int n =>
        have hc : ¬ (0 ≤ n ∧ n < 2 ^ 64) := fun hcc => hv ⟨n, rfl, hcc⟩
        refine ⟨"invalid type", ?_⟩
        simp only [deserialize_as_degrees]
        rw [if_neg hc]
    | .float | .str _ | .bool _ | .null | .arr _ | .obj _ =>
        exact ⟨"invalid type", rfl⟩

/-- C5 witness: quadrant code 3 yields 270 degrees; a negative raw value is
rejected. -/
theorem deserialize_as_degrees_times_ninety_witness :
    deserialize_as_degrees (.int 3) = .ok 270 ∧
      ∃ e, deserialize_as_degrees (.int (-1)) = .error e := by
  constructor
  · have h := deserialize_as_degrees_times_ninety.1 3 (by norm_num)
    have e : (90 : ℚ) * (3 : Nat) = 270 := by norm_num
    rw [e] at h
    exact h
  · refine deserialize_as_degrees_times_ninety.2 (.int (-1)) ?_
    rintro ⟨n, hn, h0, -⟩
    injection hn with hn'
    omega

/-! ## C6 -/

theorem multipliersAux_map :
    ∀ (ns : List Int), (∀ n ∈ ns, 0 ≤ n ∧ n < 2 ^ 64) →
      multipliersAux (ns.map JVal.int) = .ok (ns.map fun n : Int => (n : ℚ) / 100)
  | [], _ => rfl
  | n :: rest, h => by
      have hn : 0 ≤ n ∧ n < 2 ^ 64 := h n (by simp)
      have ih := multipliersAux_map rest (fun m hm => h m (by simp [hm]))
      simp only [List.map_cons, multipliersAux]
      rw [if_pos hn, ih]

/-- C6: the multiplier-sequence transcoder maps every ordered sequence of
non-negative integers (each deliverable as a `u64`) to the same-length
sequence of the elements divided by 100, preserving order; the empty sequence
yields the empty output (the case `ns = []`). -/
theorem deserialize_multipliers_div_hundred (ns : List Int)
    (h : ∀ n ∈ ns, 0 ≤ n ∧ n < 2 ^ 64) :
    deserialize_multipliers (.arr (ns.map JVal.int)) =
        .ok (ns.map fun n : Int => (n : ℚ) / 100) ∧
      (ns.map fun n : Int => (n : ℚ) / 100).length = ns.length := by
  exact ⟨multipliersAux_map ns h, by rw [List.length_map]⟩

/-- C6 witness: `[100, 200, 50]` yields `[1.0, 2.0, 0.5]` and `[]` yields
`[]`. -/
theorem deserialize_multipliers_div_hundred_witness :
    deserialize_multipliers (.arr [.int 100, .int 200, .int 50]) =
        .ok [1, 2, 1/2] ∧
      deserialize_multipliers (.arr []) = .ok [] := by
  constructor
  · have h := (deserialize_multipliers_div_hundred [100, 200, 50] (by decide)).1
    have e : (([100, 200, 50] : List Int).map fun n : Int => (n : ℚ) / 100) =
        [1, 2, 1/2] := by norm_num
    rw [e] at h
    exact h
  · exact (deserialize_multipliers_div_hundred [] (by simp)).1

/-! ## C3 -/

/-- C3: for every input that opens as a valid zip archive containing no member
named exactly `docData.json`, `load` returns the archive-structure (zip)
`FileNotFound` error — in particular it neither panics nor returns a
document. -/
theorem load_missing_docdata_zip_error
    (parseDoc : List Nat → LoadResult Pyxel)
    (zipNew : List Nat → Except ZipError Archive)
    (bytes : List Nat) (archive : Archive)
    (hzip : zipNew bytes = .ok archive)
    (hnone : ∀ m ∈ archive, m.1 ≠ "docData.json") :
    load parseDoc zipNew bytes = .err (.zip .fileNotFound) := by
  have hfind : List.find? (fun m => m.1 == "docData.json") archive = none := by
    rw [List.find?_eq_none]
    intro m hm
    simpa using hnone m hm
  simp [load, hzip, byName, hfind]

/-- C3 witness: a valid one-member archive without `docData.json` makes `load`
fail with the zip error. -/
theorem load_missing_docdata_zip_error_witness :
    load (fun _ => .panicked) (fun _ => .ok sampleArchive) [] =
      .err (.zip .fileNotFound) := by
  exact load_missing_docdata_zip_error (fun _ => .panicked)
    (fun _ => .ok sampleArchive) [] sampleArchive rfl (by decide)

/-! ## C7 -/

/-- C7: the three public entry points are observably equivalent on the same
underlying bytes: `load_from_memory b` equals `load` on `b` (a cursor over a
buffer is the reader yielding exactly the buffer), and `openPath` on a path
whose file contains exactly `b` equals `load` on `b`; an open failure is the
propagated io error. -/
theorem entry_points_equivalent
    (parseDoc : List Nat → LoadResult Pyxel)
    (zipNew : List Nat → Except ZipError Archive)
    (fs : String → Except String (List Nat)) (path : String) (b : List Nat) :
    load_from_memory parseDoc zipNew b = load parseDoc zipNew b ∧
    (fs path = .ok b →
      openPath parseDoc zipNew fs path = load parseDoc zipNew b) ∧
    (∀ e, fs path = .error e →
      openPath parseDoc zipNew fs path = .err (.io e)) := by
  refine ⟨rfl, ?_, ?_⟩
  · intro h
    simp [openPath, h]
  · intro e h
    simp [openPath, h]

/-- C7 witness: with a filesystem whose file at `"doc.pyxel"` holds `[1]`, the
three entry points agree on those bytes. -/
theorem entry_points_equivalent_witness :
    load_from_memory (fun _ => .panicked)
        (fun _ => .error (.invalidArchive "bad")) [1] =
      load (fun _ => .panicked) (fun _ => .error (.invalidArchive "bad")) [1] ∧
    openPath (fun _ => .panicked) (fun _ => .error (.invalidArchive "bad"))
        (fun _ => .ok [1]) "doc.pyxel" =
      load (fun _ => .panicked) (fun _ => .error (.invalidArchive "bad")) [1] := by
  refine ⟨?_, ?_⟩
  · exact (entry_points_equivalent (fun _ => .panicked)
      (fun _ => .error (.invalidArchive "bad")) (fun _ => .ok [1])
      "doc.pyxel" [1]).1
  · exact (entry_points_equivalent (fun _ => .panicked)
      (fun _ => .error (.invalidArchive "bad")) (fun _ => .ok [1])
      "doc.pyxel" [1]).2.1 rfl

/-! ## C8 -/

/-- C8: `load` is deterministic in its input bytes: two runs on equal byte
sequences return identical results.  (That the loader performs no writes and
touches no state outside its return value is reflected in the embedding by
`load` being a pure function of the byte source, the zip container and the
parse; the Rust code only reads from the supplied source.) -/
theorem load_deterministic
    (parseDoc : List Nat → LoadResult Pyxel)
    (zipNew : List Nat → Except ZipError Archive)
    (b1 b2 : List Nat) (h : b1 = b2) :
    load parseDoc zipNew b1 = load parseDoc zipNew b2 := by
  rw [h]

/-- C8 witness: two runs on the byte sequence `[3]` agree. -/
theorem load_deterministic_witness :
    load (fun _ => .panicked) (fun _ => .error .fileNotFound) [3] =
      load (fun _ => .panicked) (fun _ => .error .fileNotFound) [3] :=
  load_deterministic (fun _ => .panicked) (fun _ => .error .fileNotFound)
    [3] [3] rfl

/-! ## Helper lemmas about the layer-image attachment loop -/

theorem sameOutsideLayers_refl (p : Pyxel) : sameOutsideLayers p p :=
  ⟨rfl, rfl, rfl, rfl, rfl, rfl, rfl, rfl, rfl, rfl⟩

theorem sameOutsideLayers_setLayers (p : Pyxel) (L : List Layer) :
    sameOutsideLayers p { p with canvas := { p.canvas with layers := L } } :=
  ⟨rfl, rfl, rfl, rfl, rfl, rfl, rfl, rfl, rfl, rfl⟩

theorem sameOutsideLayers_trans {p q r : Pyxel}
    (h1 : sameOutsideLayers p q) (h2 : sameOutsideLayers q r) :
    sameOutsideLayers p r := by
  obtain ⟨a1, a2, a3, a4, a5, a6, a7, a8, a9, a10⟩ := h1
  obtain ⟨b1, b2, b3, b4, b5, b6, b7, b8, b9, b10⟩ := h2
  exact ⟨b1.trans a1, b2.trans a2, b3.trans a3, b4.trans a4, b5.trans a5,
    b6.trans a6, b7.trans a7, b8.trans a8, b9.trans a9, b10.trans a10⟩

theorem attachLayersAux_oob (archive : Archive) :
    ∀ (fuel i : Nat) (p : Pyxel),
      i ≤ p.canvas.layers.length →
      p.canvas.layers.length < i + fuel →
      (∀ j, i ≤ j → j ≤ p.canvas.layers.length →
        ∃ d, byName archive (layerPath j) = .ok d) →
      attachLayersAux archive fuel i p = .panicked := by
  intro fuel
  induction fuel with
  | zero => intro i p hip hlt _; omega
  | succ fuel ih =>
      intro i p hip hlt hmem
      obtain ⟨data, hbn⟩ := hmem i le_rfl hip
      simp only [attachLayersAux, hbn]
      by_cases hi : i < p.canvas.layers.length
      · rw [dif_pos hi]
        apply ih
        · simp only [List.length_set]
          omega
        · simp only [List.length_set]
          omega
        · intro j hj1 hj2
          simp only [List.length_set] at hj2
          exact hmem j (by omega) hj2
      · rw [dif_neg hi]

theorem attachLayersAux_ok (archive : Archive) :
    ∀ (fuel i : Nat) (p : Pyxel),
      i + fuel ≤ p.canvas.layers.length →
      (∀ j, i ≤ j → j < i + fuel → ∃ d, byName archive (layerPath j) = .ok d) →
      ∃ q, attachLayersAux archive fuel i p = .ok q ∧ sameOutsideLayers p q ∧
        q.canvas.layers.length = p.canvas.layers.length ∧
        ∀ j (hj : j < p.canvas.layers.length) (hj2 : j < q.canvas.layers.length),
          q.canvas.layers[j] =
            if i ≤ j ∧ j < i + fuel then
              setLayerImage (p.canvas.layers[j])
                (okBytes (byName archive (layerPath j)))
            else p.canvas.layers[j] := by
  intro fuel
  induction fuel with
  | zero =>
      intro i p _ _
      refine ⟨p, rfl, sameOutsideLayers_refl p, rfl, ?_⟩
      intro j hj hj2
      rw [if_neg (by omega)]
  | succ fuel ih =>
      intro i p hlen hmem
      obtain ⟨data, hbn⟩ := hmem i le_rfl (by omega)
      have hi : i < p.canvas.layers.length := by omega
      set p' : Pyxel := { p with canvas := { p.canvas with
        layers := p.canvas.layers.set i
          (setLayerImage (p.canvas.layers.get ⟨i, hi⟩) data) } } with hp'
      have hlen' : p'.canvas.layers.length = p.canvas.layers.length := by
        simp [hp', List.length_set]
      obtain ⟨q, hq, hsame, hqlen, hget⟩ := ih (i + 1) p'
        (by rw [hlen']; omega)
        (fun j hj1 hj2 => hmem j (by omega) (by omega))
      refine ⟨q, ?_, ?_, ?_, ?_⟩
      · simp only [attachLayersAux, hbn]
        rw [dif_pos hi]
        exact hq
      · exact sameOutsideLayers_trans (sameOutsideLayers_setLayers p _) hsame
      · rw [hqlen, hlen']
      · intro j hj hj2
        have hj' : j < p'.canvas.layers.length := by rw [hlen']; exact hj
        have h1 := hget j hj' hj2
        have hset : p'.canvas.layers[j] =
            if i = j then setLayerImage (p.canvas.layers[i]) data
            else p.canvas.layers[j] := by
          simp only [hp']
          rw [List.getElem_set]
          simp [setLayerImage]
        by_cases hcond : i ≤ j ∧ j < i + (fuel + 1)
        · rw [if_pos hcond]
          by_cases hji : i = j
          · subst hji
            rw [h1, if_neg (by omega), hset, if_pos rfl, hbn]
            rfl
          · have hij : i + 1 ≤ j := by omega
            rw [h1, if_pos ⟨hij, by omega⟩, hset, if_neg hji]
        · rw [if_neg hcond]
          have hc2 : ¬ (i + 1 ≤ j ∧ j < i + 1 + fuel) := by omega
          rw [h1, if_neg hc2, hset, if_neg (by omega)]

/-! ## C10 -/

/-- C10 (amended): in `load`, the declared `canvas.num_layers` drives the
layer-image attachment loop and the layer list is indexed unchecked, but the
loop fetches each archive member *before* indexing.  Whenever `num_layers`
exceeds the parsed layer-sequence length *and* the members
`layer0.png .. layer{L}.png` (`L` the sequence length) are present, the loop
panics on the out-of-bounds index; if a needed member is missing before the
out-of-bounds index is reached, a zip error is returned instead (see
`load_layer_attachment_counts_cex`).  When `num_layers` is at most the
sequence length and members `layer0.png .. layer{num_layers-1}.png` are
present, the loop succeeds, exactly the first `num_layers` layers receive the
fetched image payloads, and every field outside the attached layer images is
unchanged (the subsequent tile loop still attaches tileset images).  Finally,
`load` is exactly this loop composed after the parse and followed by the tile
loop. -/
theorem load_layer_attachment_counts (archive : Archive) (p : Pyxel) :
    (p.canvas.layers.length < p.canvas.num_layers →
      (∀ j, j ≤ p.canvas.layers.length →
        ∃ d, byName archive (layerPath j) = .ok d) →
      attachLayerImages archive p = .panicked) ∧
    (p.canvas.num_layers ≤ p.canvas.layers.length →
      (∀ j, j < p.canvas.num_layers →
        ∃ d, byName archive (layerPath j) = .ok d) →
      ∃ q, attachLayerImages archive p = .ok q ∧ sameOutsideLayers p q ∧
        q.canvas.layers.length = p.canvas.layers.length ∧
        ∀ j (hj : j < p.canvas.layers.length) (hj2 : j < q.canvas.layers.length),
          q.canvas.layers[j] =
            if j < p.canvas.num_layers then
              setLayerImage (p.canvas.layers[j])
                (okBytes (byName archive (layerPath j)))
            else p.canvas.layers[j]) ∧
    (∀ parseDoc zipNew (bytes data : List Nat),
      zipNew bytes = .ok archive →
      byName archive "docData.json" = .ok data →
      parseDoc data = .ok p →
      load parseDoc zipNew bytes =
        match attachLayerImages archive p with
        | .ok q => attachTileImages archive q
        | other => other) := by
  refine ⟨?_, ?_, ?_⟩
  · intro hlt hmem
    exact attachLayersAux_oob archive p.canvas.num_layers 0 p (Nat.zero_le _)
      (by omega) (fun j _ hj2 => hmem j hj2)
  · intro hle hmem
    obtain ⟨q, hq, hsame, hqlen, hget⟩ := attachLayersAux_ok archive
      p.canvas.num_layers 0 p (by omega) (fun j _ hj2 => hmem j (by omega))
    refine ⟨q, hq, hsame, hqlen, ?_⟩
    intro j hj hj2
    have h1 := hget j hj hj2
    simpa using h1
  · intro parseDoc zipNew bytes data h1 h2 h3
    simp [load, h1, h2, h3]

/-- C10 counterexample: a parsed document declaring `num_layers = 1` with an
empty layer sequence, attached against an archive with no `layer0.png`
member: the loop returns the zip `FileNotFound` error, it does not panic, so
the original claim's unconditional "panics" is false. -/
theorem load_layer_attachment_counts_cex :
    attachLayerImages [] (sampleDoc [] 1) = .err (.zip .fileNotFound) ∧
      attachLayerImages [] (sampleDoc [] 1) ≠ .panicked := by
  constructor
  · rfl
  · intro h
    rw [show attachLayerImages [] (sampleDoc [] 1) =
      .err (.zip .fileNotFound) from rfl] at h
    exact LoadResult.noConfusion h

/-- C10 witness: with `layer0.png` present, the declared count 1 against an
empty layer sequence panics; against a two-layer sequence the loop succeeds;
and `load` equals the composition of the stages on concrete inputs. -/
theorem load_layer_attachment_counts_witness :
    attachLayerImages sampleArchive (sampleDoc [] 1) = .panicked ∧
      (∃ q, attachLayerImages sampleArchive
        (sampleDoc [sampleLayer, sampleLayer] 1) = .ok q) ∧
      load (fun _ => .ok (sampleDoc [] 1)) (fun _ => .ok sampleArchive2) [] =
        match attachLayerImages sampleArchive2 (sampleDoc [] 1) with
        | .ok q => attachTileImages sampleArchive2 q
        | other => other := by
  refine ⟨?_, ?_, ?_⟩
  · refine (load_layer_attachment_counts sampleArchive (sampleDoc [] 1)).1
      (by decide) ?_
    intro j hj
    have hj' : j ≤ 0 := hj
    interval_cases j
    exact ⟨[7], rfl⟩
  · have hmem : ∀ j,
        j < (sampleDoc [sampleLayer, sampleLayer] 1).canvas.num_layers →
        ∃ d, byName sampleArchive (layerPath j) = .ok d := by
      intro j hj
      have hj' : j < 1 := hj
      interval_cases j
      exact ⟨[7], rfl⟩
    obtain ⟨q, hq, -, -, -⟩ := (load_layer_attachment_counts sampleArchive
      (sampleDoc [sampleLayer, sampleLayer] 1)).2.1 (by decide) hmem
    exact ⟨q, hq⟩
  · exact (load_layer_attachment_counts sampleArchive2 (sampleDoc [] 1)).2.2
      (fun _ => .ok (sampleDoc [] 1)) (fun _ => .ok sampleArchive2) [] [1]
      rfl rfl rfl
